import Mathlib

/-!
Verification of the kubetest2 GCE deployer (kubetest2-gce/deployer/deployer.go)
and its leased-resource manager, shallowly embedded in Lean.

Go strings are modelled as lists of characters, Go `int` as `Int`,
Go `(T, error)` returns as a pair with an `Option` error component.
External collaborators (the filesystem, the boskos pool service, the
process runner for the external builder) are modelled as explicit
oracle parameters.
-/

namespace Kubetest2

/-- Go strings, modelled as lists of characters. -/
abbrev GoStr := List Char

/-- The `types.Options` interface consumed by `New`: the methods the
embedded code calls are `RunID()`, `RunDir()` and `ShouldBuild()`. -/
structure Options where
  runID : GoStr
  runDir : GoStr
  shouldBuild : Bool
deriving DecidableEq

/-- The constant `maxResourceNamePrefixLength` from `pseudoUniqueSubstring`. -/
def maxResourceNamePrefixLength : Nat := 13

/-- `pseudoUniqueSubstring` (deployer.go lines 106-119): returns the whole
uuid when it has at most 13 characters, and otherwise its first 13
characters (`uuid[:13]`). -/
def pseudoUniqueSubstring (uuid : GoStr) : GoStr :=
  if uuid.length ≤ maxResourceNamePrefixLength then uuid
  else uuid.take maxResourceNamePrefixLength

namespace build

/-- The builder configured by `New` is `build.NoopBuilder{}`. -/
inductive Builder
  | noopBuilder
deriving DecidableEq

/-- The stager configured by `New` is `build.NoopStager{}`. -/
inductive Stager
  | noopStager
deriving DecidableEq

/-- The `build.Options` struct: the fields `New` sets. -/
structure BuildOpts where
  builder : Builder
  stager : Stager
  strategy : GoStr
  targetBuildArch : GoStr
deriving DecidableEq

end build

/-- The `options.BuildOptions` struct wrapping the common build options. -/
structure BuildOptions where
  commonBuildOptions : build.BuildOpts
deriving DecidableEq

/-- The `Deployer` struct (deployer.go lines 45-98). `doInit sync.Once` is
initialization plumbing with no data and is omitted; the `boskos` client
pointer is `Option Unit` (`none` = nil); the `boskosHeartbeatClose` channel
is modelled by whether it has been closed (`false` at construction, when
`make(chan struct{})` creates it open). -/
structure Deployer where
  commonOptions : Options
  BuildOptions : BuildOptions
  kubeconfigPath : GoStr
  kubectlPath : GoStr
  logsDir : GoStr
  boskos : Option Unit
  boskosHeartbeatClose : Bool
  instancePrefix : GoStr
  network : GoStr
  Env : List GoStr
  BoskosAcquireTimeoutSeconds : Int
  BoskosHeartbeatIntervalSeconds : Int
  RepoRoot : GoStr
  GCPProject : GoStr
  GCPZone : GoStr
  EnableComputeAPI : Bool
  OverwriteLogsDir : Bool
  BoskosLocation : GoStr
  LegacyMode : Bool
  NumNodes : Int
  EnableCacheMutationDetector : Bool
  RuntimeConfig : GoStr
  EnablePodSecurityPolicy : Bool
  CreateCustomNetwork : Bool
  NodeScopes : GoStr
  NodeServiceAccount : GoStr
  CloudProvider : GoStr
  FeatureGates : GoStr
  MasterSize : GoStr
  NodeSize : GoStr
  IngressGCEImage : GoStr
deriving DecidableEq

/-- Go's `filepath.Join` for two components, simplified to concatenation
with a separator: the path cleaning `filepath.Join` performs is irrelevant
to every claim below (the joined paths are only compared for equality). -/
def filepathJoin (dir file : GoStr) : GoStr := dir ++ '/' :: file

/-- `artifacts.BaseDir()` is an external collaborator (filesystem layout
for logs, out of scope per the spec); its value does not affect any claim. -/
def artifactsBaseDir : GoStr := String.toList "artifacts"

/-- `New` (deployer.go lines 122-154). The struct literal fills the listed
fields; every other field carries its Go zero value. The subsequent
`gpflag.Parse` / `AddGoFlagSet` calls only register command-line flags and
do not change the returned deployer, so the embedding returns the
constructed value. -/
def New (opts : Options) : Deployer :=
  { commonOptions := opts
    BuildOptions :=
      { commonBuildOptions :=
          { builder := build.Builder.noopBuilder
            stager := build.Stager.noopStager
            strategy := String.toList "make"
            targetBuildArch := String.toList "linux/amd64" } }
    kubeconfigPath := filepathJoin opts.runDir (String.toList "kubetest2-kubeconfig")
    kubectlPath := []
    logsDir := filepathJoin artifactsBaseDir (String.toList "cluster-logs")
    boskos := none
    boskosHeartbeatClose := false
    instancePrefix := String.toList "kt2-" ++ pseudoUniqueSubstring opts.runID
    network := String.toList "kt2-" ++ pseudoUniqueSubstring opts.runID
    Env := []
    BoskosAcquireTimeoutSeconds := 5 * 60
    BoskosHeartbeatIntervalSeconds := 5 * 60
    RepoRoot := []
    GCPProject := []
    GCPZone := []
    EnableComputeAPI := false
    OverwriteLogsDir := false
    BoskosLocation := String.toList "http://boskos.test-pods.svc.cluster.local."
    LegacyMode := false
    NumNodes := 3
    EnableCacheMutationDetector := false
    RuntimeConfig := []
    EnablePodSecurityPolicy := false
    CreateCustomNetwork := false
    NodeScopes := []
    NodeServiceAccount := []
    CloudProvider := []
    FeatureGates := []
    MasterSize := []
    NodeSize := []
    IngressGCEImage := [] }

/-- The outcome of `os.Stat` on a path, as the embedded code distinguishes
it: success, an error satisfying `os.IsNotExist`, or any other error. The
filesystem is an oracle from paths to outcomes. -/
inductive StatResult
  | ok
  | notExist
  | otherError
deriving DecidableEq

/-- The errors `Kubeconfig` can return: the kubeconfig-does-not-exist error
or the unknown-stat-error wrapper. -/
inductive KubeconfigError
  | doesNotExist
  | unknownStatError
deriving DecidableEq

/-- `Kubeconfig` (deployer.go lines 170-180): stat the kubeconfig path; on
an `IsNotExist` error return `("", error)`; on any other error return
`("", error)`; otherwise return the path and nil error. The method reads
`d.kubeconfigPath` and assigns no field, so the embedding is a pure
function of the deployer and the filesystem oracle. -/
def Deployer.Kubeconfig (d : Deployer) (fs : GoStr → StatResult) :
    GoStr × Option KubeconfigError :=
  match fs d.kubeconfigPath with
  | StatResult.notExist => ([], some KubeconfigError.doesNotExist)
  | StatResult.otherError => ([], some KubeconfigError.unknownStatError)
  | StatResult.ok => (d.kubeconfigPath, none)

/-- A file exists at `p` in the filesystem modelled by `fs` when stat
succeeds there. -/
def fileExistsAt (fs : GoStr → StatResult) (p : GoStr) : Prop :=
  fs p = StatResult.ok

/-- `kindDefaultBuiltImageName` is a constant declared elsewhere in the kind
deployer package (outside the embedded source); its exact value is
irrelevant to every claim below. -/
def kindDefaultBuiltImageName : GoStr := String.toList "kindest/node:latest"

/-- The kind deployer (third embedded source file): the fields its `Build`
method reads. -/
structure KindDeployer where
  commonOptions : Options
  BuildType : GoStr
  KubeRoot : GoStr
  NodeImage : GoStr
deriving DecidableEq

/-- The argument list `Build` assembles for the external `kind` invocation
(kind deployer source, lines 279-294): `build node-image`, then `--type`
when a build type is set, then `--kube-root` when set, then `--image` with
the explicit image name when one is set, else with the default built image
name when a build was requested. -/
def buildArgs (d : KindDeployer) : List GoStr :=
  (([String.toList "build", String.toList "node-image"] ++
      (if d.BuildType ≠ [] then [String.toList "--type", d.BuildType] else [])) ++
      (if d.KubeRoot ≠ [] then [String.toList "--kube-root", d.KubeRoot] else [])) ++
    (if d.NodeImage ≠ [] then [String.toList "--image", d.NodeImage]
      else if d.commonOptions.shouldBuild then
        [String.toList "--image", kindDefaultBuiltImageName]
      else [])

/-- `Build` (kind deployer source, lines 278-303): run the external builder
via `process.ExecJUnit` — modelled as an oracle from the argument list to an
optional error — and return its error if it failed; on success
`build.StoreCommonBinaries` (a side effect returning nothing) runs and
`Build` returns nil. -/
def KindDeployer.Build (d : KindDeployer) (execJUnit : List GoStr → Option GoStr) :
    Option GoStr :=
  match execJUnit (buildArgs d) with
  | some err => some err
  | none => none

/-- Whether an argument list passes `flag` immediately followed by the
value `v` somewhere. -/
def passesFlagValue (flag v : GoStr) : List GoStr → Prop
  | a :: b :: rest => (a = flag ∧ b = v) ∨ passesFlagValue flag v (b :: rest)
  | _ => False

/-- The calls the resource-pool (boskos) service can receive from this
client: acquire-with-timeout, send-heartbeat, release. -/
inductive PoolCall
  | acquire
  | heartbeat
  | release
deriving DecidableEq

/-- Modelled from the spec: the ResourceManager state (spec sections 3 and
4.3). The acquire/heartbeat/release driver of the gce deployer is not part
of the embedded source (only the `boskos` and `boskosHeartbeatClose` field
declarations are), so its state is taken from the spec: the resolved
project, whether a lease was recorded, and whether the heartbeat loop is
running. -/
structure ResourceManager where
  resolvedProject : GoStr
  hasLease : Bool
  heartbeatRunning : Bool
deriving DecidableEq

/-- Modelled from the spec: ResourceManager initialization (spec section
4.3 steps 1-2), whose code is not in the embedded source. If a project
identifier was supplied explicitly, skip pool interaction entirely and
resolve to that value; otherwise acquire from the pool (modelled by the
granted `pooledProject`) and start the heartbeat when the interval is
nonzero. The second component lists the pool calls the step issues. -/
def rmInit (d : Deployer) (pooledProject : GoStr) : ResourceManager × List PoolCall :=
  if d.GCPProject ≠ [] then
    ({ resolvedProject := d.GCPProject, hasLease := false, heartbeatRunning := false }, [])
  else
    ({ resolvedProject := pooledProject, hasLease := true,
       heartbeatRunning := decide (0 < d.BoskosHeartbeatIntervalSeconds) },
      [PoolCall.acquire])

/-- Modelled from the spec: one heartbeat tick (spec section 4.2), whose
loop code is not in the embedded source: a tick calls `Heartbeat` on the
pool exactly while the loop is running. -/
def heartbeatTick (s : ResourceManager) : List PoolCall :=
  if s.heartbeatRunning then [PoolCall.heartbeat] else []

/-- Modelled from the spec: one `Teardown()` call (spec section 4.3 step
3), whose code is not in the embedded source: stop the heartbeat loop if
it is running and wait for exit, then call `Release` if a lease was
recorded. The second component lists the pool calls issued. -/
def teardownOnce (s : ResourceManager) : ResourceManager × List PoolCall :=
  if s.hasLease then
    ({ s with heartbeatRunning := false, hasLease := false }, [PoolCall.release])
  else
    ({ s with heartbeatRunning := false }, [])

/-- `n` successive `Teardown()` calls, accumulating the pool calls each
one issues. -/
def teardownN : Nat → ResourceManager → ResourceManager × List PoolCall
  | 0, s => (s, [])
  | n + 1, s =>
      ((teardownN n (teardownOnce s).1).1,
        (teardownOnce s).2 ++ (teardownN n (teardownOnce s).1).2)

/-- Modelled from the spec: the events observable in a leased run (spec
sections 4.2, 5, 8): a successful acquire, a heartbeat tick, the one-shot
stop signal, the join of the heartbeat task, the release call, and the
return from `Teardown`. -/
inductive HBEvent
  | acquireOk
  | heartbeat
  | stopSignal
  | joined
  | released
  | teardownReturn
deriving DecidableEq

/-- Modelled from the spec: the main lifecycle flow's position in the
acquire/use/teardown protocol (spec section 5). -/
inductive MainPhase
  | start
  | running
  | stopping
  | joinedHB
  | releasedS
  | finished
deriving DecidableEq

/-- Modelled from the spec: the combined state of the main flow and the
background heartbeat task (spec section 5): the main phase, whether the
heartbeat task is running, and whether the stop signal has fired. -/
structure HBSys where
  main : MainPhase
  hbRunning : Bool
  stopRequested : Bool
deriving DecidableEq

/-- The initial system state: nothing acquired, no heartbeat task. -/
def hbInit : HBSys :=
  { main := MainPhase.start, hbRunning := false, stopRequested := false }

/-- Modelled from the spec: the labelled interleaving steps of the main
flow and the heartbeat task (spec sections 4.2, 4.3, 5). The heartbeat
task is spawned by a successful acquire when the interval is positive; it
may tick while it runs (even after the stop signal fired, until it
observes it - the stop is asynchronous); it exits once the stop signal
fired; the main flow's teardown sends the stop signal, joins the task
(enabled only once the task has exited), then releases, then returns. -/
inductive HBStep (interval : Int) : HBSys → List HBEvent → HBSys → Prop
  | acquire :
      HBStep interval
        { main := MainPhase.start, hbRunning := false, stopRequested := false }
        [HBEvent.acquireOk]
        { main := MainPhase.running, hbRunning := decide (0 < interval),
          stopRequested := false }
  | tick (s : HBSys) (hrun : s.hbRunning = true) :
      HBStep interval s [HBEvent.heartbeat] s
  | hbExit (s : HBSys) (hrun : s.hbRunning = true) (hstop : s.stopRequested = true) :
      HBStep interval s [] { s with hbRunning := false }
  | beginTeardown (s : HBSys) (hm : s.main = MainPhase.running) :
      HBStep interval s [HBEvent.stopSignal]
        { s with main := MainPhase.stopping, stopRequested := true }
  | joinHB (s : HBSys) (hm : s.main = MainPhase.stopping) (hrun : s.hbRunning = false) :
      HBStep interval s [HBEvent.joined] { s with main := MainPhase.joinedHB }
  | doRelease (s : HBSys) (hm : s.main = MainPhase.joinedHB) :
      HBStep interval s [HBEvent.released] { s with main := MainPhase.releasedS }
  | finish (s : HBSys) (hm : s.main = MainPhase.releasedS) :
      HBStep interval s [HBEvent.teardownReturn] { s with main := MainPhase.finished }

/-- Finite executions of the heartbeat system, accumulating the events of
each step in order. -/
inductive HBTrace (interval : Int) : HBSys → List HBEvent → HBSys → Prop
  | refl (s : HBSys) : HBTrace interval s [] s
  | step (s t u : HBSys) (evs1 evs2 : List HBEvent)
      (h1 : HBStep interval s evs1 t) (h2 : HBTrace interval t evs2 u) :
      HBTrace interval s (evs1 ++ evs2) u

/-- The invariant that once the main flow has joined the heartbeat task
(phases joinedHB, releasedS, finished), the task is no longer running. -/
def joinedInv (s : HBSys) : Prop :=
  (s.main = MainPhase.joinedHB ∨ s.main = MainPhase.releasedS ∨
      s.main = MainPhase.finished) →
    s.hbRunning = false

/-- A concrete ResourceManager state with a recorded lease and a running
heartbeat, used by witness theorems. -/
def exampleRM : ResourceManager :=
  { resolvedProject := String.toList "pool-proj", hasLease := true,
    heartbeatRunning := true }

/-- A concrete options value used by witness theorems. -/
def exampleOptsA : Options :=
  { runID := String.toList "09a2565a-7ac6-11eb-a603-2218f636630c"
    runDir := String.toList "/tmp/runA"
    shouldBuild := false }

/-- A second concrete options value sharing `exampleOptsA`'s run id but
differing elsewhere, used by witness theorems. -/
def exampleOptsB : Options :=
  { runID := String.toList "09a2565a-7ac6-11eb-a603-2218f636630c"
    runDir := String.toList "/tmp/runB"
    shouldBuild := true }

/-- A concrete deployer with an explicit GCP project configured, used by
witness theorems. -/
def exampleDeployerExplicit : Deployer :=
  { New exampleOptsA with GCPProject := String.toList "my-proj" }

end Kubetest2

namespace Kubetest2

/-- helper: the fragment returned by `pseudoUniqueSubstring` never exceeds
13 characters. -/
theorem pseudoUniqueSubstring_length_le (s : GoStr) :
    (pseudoUniqueSubstring s).length ≤ 13 := by
  unfold pseudoUniqueSubstring maxResourceNamePrefixLength
  split
  · omega
  · simp [List.length_take]

/-- C8: for every string `s`, `pseudoUniqueSubstring s` is a prefix of `s`
of length `min (length s) 13`, and `pseudoUniqueSubstring` is idempotent. -/
theorem pseudoUniqueSubstring_prefix_min_idem (s : GoStr) :
    List.IsPrefix (pseudoUniqueSubstring s) s ∧
      (pseudoUniqueSubstring s).length = min s.length 13 ∧
      pseudoUniqueSubstring (pseudoUniqueSubstring s) = pseudoUniqueSubstring s := by
  unfold pseudoUniqueSubstring maxResourceNamePrefixLength
  by_cases h : s.length ≤ 13
  · rw [if_pos h, if_pos h]
    exact ⟨List.prefix_refl s, by omega, rfl⟩
  · rw [if_neg h]
    refine ⟨List.take_prefix _ _, ?_, ?_⟩
    · simp [List.length_take]
      omega
    · rw [if_pos]
      simp [List.length_take]

/-- C2: the deployer returned by `New` carries the configured defaults of
300 seconds for both the pool acquisition timeout and the heartbeat
interval, for every input options value. -/
theorem New_boskos_defaults (opts : Options) :
    (New opts).BoskosAcquireTimeoutSeconds = 300 ∧
      (New opts).BoskosHeartbeatIntervalSeconds = 300 := by
  constructor <;> rfl

/-- C9: the deployer returned by `New` has `instancePrefix` equal to
`network`: both are built from the same "kt2-" prefix and the same
run-identifier fragment (the embedding is immutable, so the equality is an
invariant of the constructed value). -/
theorem New_instancePrefix_eq_network (opts : Options) :
    (New opts).instancePrefix = (New opts).network := rfl

/-- C3: for every run identifier, the `instancePrefix` and `network` names
produced by `New` start with a letter and have length at most 17
(4 for "kt2-" plus at most 13 from `pseudoUniqueSubstring`). -/
theorem New_names_wellformed (opts : Options) :
    (New opts).instancePrefix.length ≤ 17 ∧
      (New opts).network.length ≤ 17 ∧
      (∃ c tail, (New opts).instancePrefix = c :: tail ∧ c.isAlpha = true) ∧
      (∃ c tail, (New opts).network = c :: tail ∧ c.isAlpha = true) := by
  have hlen : (String.toList "kt2-" ++ pseudoUniqueSubstring opts.runID).length ≤ 17 := by
    rw [List.length_append]
    have := pseudoUniqueSubstring_length_le opts.runID
    have h4 : (String.toList "kt2-").length = 4 := rfl
    omega
  have hhead : ∃ c tail,
      String.toList "kt2-" ++ pseudoUniqueSubstring opts.runID = c :: tail ∧
        c.isAlpha = true :=
    ⟨'k', String.toList "t2-" ++ pseudoUniqueSubstring opts.runID, rfl, by decide⟩
  exact ⟨hlen, hlen, hhead, hhead⟩

/-- C4: the name fragments are derived deterministically from the run
identifier: two options values with the same `runID` yield deployers with
identical `instancePrefix` values and identical `network` values. -/
theorem New_names_deterministic (o1 o2 : Options) (h : o1.runID = o2.runID) :
    (New o1).instancePrefix = (New o2).instancePrefix ∧
      (New o1).network = (New o2).network := by
  constructor <;> simp [New, h]

/-- Witness for C4 at two concrete options values sharing a run id but
differing in run directory and build flag. -/
theorem New_names_deterministic_witness :
    (New exampleOptsA).instancePrefix = (New exampleOptsB).instancePrefix ∧
      (New exampleOptsA).network = (New exampleOptsB).network :=
  New_names_deterministic exampleOptsA exampleOptsB rfl

/-- C10: `Kubeconfig` returns the configured kubeconfig path with no error
exactly when a file exists at that path (stat succeeds); when the file does
not exist it returns the empty string with the does-not-exist error, and
whenever stat does not succeed the result is the empty string with some
error. The embedding is a pure function of the deployer, so the deployer
value is unchanged by construction. -/
theorem Kubeconfig_ok_iff_exists (d : Deployer) (fs : GoStr → StatResult) :
    (d.Kubeconfig fs = (d.kubeconfigPath, none) ↔ fileExistsAt fs d.kubeconfigPath) ∧
      (fs d.kubeconfigPath = StatResult.notExist →
        d.Kubeconfig fs = ([], some KubeconfigError.doesNotExist)) ∧
      (¬ fileExistsAt fs d.kubeconfigPath →
        (d.Kubeconfig fs).1 = [] ∧ (d.Kubeconfig fs).2.isSome = true) := by
  cases h : fs d.kubeconfigPath <;>
    simp [Deployer.Kubeconfig, fileExistsAt, h, Prod.ext_iff]

/-- helper: a list ending in the two elements `f`, `v` passes the flag `f`
with value `v`. -/
theorem passesFlagValue_append (f v : GoStr) :
    ∀ l : List GoStr, passesFlagValue f v (l ++ [f, v]) := by
  intro l
  induction l with
  | nil => simp [passesFlagValue]
  | cons a l ih =>
    cases l with
    | nil => simp [passesFlagValue]
    | cons b t =>
      have : passesFlagValue f v (b :: (t ++ [f, v])) := by simpa using ih
      simp [passesFlagValue]
      tauto

/-- C7: `Build` invokes the external builder with the explicitly configured
image name when one is set; when no explicit image name is set it passes
the default built image name exactly when a build was requested; and
`Build` returns an error exactly when the external build invocation
fails. -/
theorem Build_image_and_error (d : KindDeployer)
    (execJUnit : List GoStr → Option GoStr) :
    (d.NodeImage ≠ [] →
      passesFlagValue (String.toList "--image") d.NodeImage (buildArgs d)) ∧
      (d.NodeImage = [] → d.commonOptions.shouldBuild = true →
        passesFlagValue (String.toList "--image") kindDefaultBuiltImageName
          (buildArgs d)) ∧
      (d.NodeImage = [] → d.commonOptions.shouldBuild = false →
        ¬ passesFlagValue (String.toList "--image") kindDefaultBuiltImageName
          (buildArgs d)) ∧
      (KindDeployer.Build d execJUnit = none ↔ execJUnit (buildArgs d) = none) := by
  refine ⟨?_, ?_, ?_, ?_⟩
  · intro h
    have hrw : buildArgs d =
        (([String.toList "build", String.toList "node-image"] ++
            (if d.BuildType ≠ [] then [String.toList "--type", d.BuildType] else [])) ++
            (if d.KubeRoot ≠ [] then [String.toList "--kube-root", d.KubeRoot] else [])) ++
          [String.toList "--image", d.NodeImage] := by
      unfold buildArgs
      congr 1
      exact if_pos h
    rw [hrw]
    exact passesFlagValue_append _ _ _
  · intro h hb
    have hrw : buildArgs d =
        (([String.toList "build", String.toList "node-image"] ++
            (if d.BuildType ≠ [] then [String.toList "--type", d.BuildType] else [])) ++
            (if d.KubeRoot ≠ [] then [String.toList "--kube-root", d.KubeRoot] else [])) ++
          [String.toList "--image", kindDefaultBuiltImageName] := by
      unfold buildArgs
      congr 1
      simp [h, hb]
    rw [hrw]
    exact passesFlagValue_append _ _ _
  · intro h hb
    have ne1 : String.toList "build" ≠ String.toList "--image" := by decide
    have ne2 : String.toList "node-image" ≠ String.toList "--image" := by decide
    have ne3 : String.toList "--type" ≠ String.toList "--image" := by decide
    have ne4 : String.toList "--kube-root" ≠ String.toList "--image" := by decide
    have ne5 : String.toList "--kube-root" ≠ kindDefaultBuiltImageName := by decide
    rcases eq_or_ne d.BuildType [] with hbt | hbt <;>
      rcases eq_or_ne d.KubeRoot [] with hkr | hkr <;>
        simp [buildArgs, passesFlagValue, h, hb, hbt, hkr, ne1, ne2, ne3, ne4, ne5]
    exact fun _ h2 => ne5 h2
  · cases h : execJUnit (buildArgs d) <;> simp [KindDeployer.Build, h]

/-- helper: a `Teardown()` call with no recorded lease issues no pool
call and only clears the heartbeat flag. -/
theorem teardownOnce_no_lease (s : ResourceManager) (h : s.hasLease = false) :
    teardownOnce s = ({ s with heartbeatRunning := false }, []) := by
  simp [teardownOnce, h]

/-- helper: any number of `Teardown()` calls on a state with no recorded
lease issues no pool call. -/
theorem teardownN_no_lease (n : Nat) :
    ∀ s : ResourceManager, s.hasLease = false → (teardownN n s).2 = [] := by
  induction n with
  | zero => intro s _; rfl
  | succ n ih =>
    intro s h
    have h1 : ({ s with heartbeatRunning := false } : ResourceManager).hasLease = false := h
    simp [teardownN, teardownOnce_no_lease s h, ih _ h1]

/-- C1: from a state with a recorded lease, N `Teardown()` calls (N ≥ 1)
issue exactly one `Release` to the pool: the first call performs the
stop-heartbeat-then-release work and every subsequent call is a no-op. -/
theorem Teardown_release_exactly_once (n : Nat) (s : ResourceManager)
    (hl : s.hasLease = true) (hn : 1 ≤ n) :
    List.count PoolCall.release (teardownN n s).2 = 1 ∧
      teardownOnce s =
        ({ s with heartbeatRunning := false, hasLease := false }, [PoolCall.release]) ∧
      teardownOnce (teardownOnce s).1 = ((teardownOnce s).1, []) := by
  obtain ⟨m, rfl⟩ : ∃ m, n = m + 1 := ⟨n - 1, by omega⟩
  have hfirst : teardownOnce s =
      ({ s with heartbeatRunning := false, hasLease := false }, [PoolCall.release]) := by
    simp [teardownOnce, hl]
  have h1 : ({ s with heartbeatRunning := false, hasLease := false } :
      ResourceManager).hasLease = false := rfl
  have hrest := teardownN_no_lease m _ h1
  refine ⟨?_, hfirst, ?_⟩
  · have hcalls : (teardownN (m + 1) s).2 = [PoolCall.release] := by
      simp [teardownN, hfirst, hrest]
    rw [hcalls]
    rfl
  · rw [hfirst]
    simp [teardownOnce]

/-- Witness for C1: three `Teardown()` calls on a concrete leased state
issue exactly one `Release`. -/
theorem Teardown_release_exactly_once_witness :
    List.count PoolCall.release (teardownN 3 exampleRM).2 = 1 ∧
      teardownOnce exampleRM =
        ({ exampleRM with heartbeatRunning := false, hasLease := false },
          [PoolCall.release]) ∧
      teardownOnce (teardownOnce exampleRM).1 = ((teardownOnce exampleRM).1, []) :=
  Teardown_release_exactly_once 3 exampleRM rfl (by decide)

/-- C5: with an explicit project configured (`GCPProject` non-empty) the
resolved project is that value and no pool call is ever made: acquisition
issues none, no heartbeat tick fires (the loop is not running), and any
number of teardowns issue none. -/
theorem explicitProject_no_pool_calls (d : Deployer) (pooled : GoStr) (n : Nat)
    (h : d.GCPProject ≠ []) :
    (rmInit d pooled).1.resolvedProject = d.GCPProject ∧
      (rmInit d pooled).2 = [] ∧
      heartbeatTick (rmInit d pooled).1 = [] ∧
      (teardownN n (rmInit d pooled).1).2 = [] := by
  have hr : rmInit d pooled =
      (({ resolvedProject := d.GCPProject, hasLease := false,
          heartbeatRunning := false } : ResourceManager), []) := by
    simp [rmInit, h]
  refine ⟨by rw [hr], by rw [hr], by rw [hr]; rfl, ?_⟩
  rw [hr]
  exact teardownN_no_lease n _ rfl

/-- helper: every step of the heartbeat system emits no event or exactly
one. -/
theorem hbStep_emits {i : Int} {s t : HBSys} {evs : List HBEvent}
    (h : HBStep i s evs t) : evs = [] ∨ ∃ e, evs = [e] := by
  cases h <;> simp

/-- helper: from an unstarted state (main phase `start`, heartbeat task
not running) the only possible step is the successful acquire. -/
theorem hbStep_from_start {i : Int} {s t : HBSys} {evs : List HBEvent}
    (h : HBStep i s evs t) (hm : s.main = MainPhase.start)
    (hr : s.hbRunning = false) : evs = [HBEvent.acquireOk] := by
  cases h <;> simp_all

/-- helper: a nonempty trace from the initial state begins with the
successful acquire event. -/
theorem hbTrace_head_acquire {i : Int} {s u : HBSys} {evs : List HBEvent}
    (h : HBTrace i s evs u) (hm : s.main = MainPhase.start)
    (hr : s.hbRunning = false) :
    evs = [] ∨ ∃ tail, evs = HBEvent.acquireOk :: tail := by
  cases h with
  | refl s => left; rfl
  | step s t u evs1 evs2 h1 h2 =>
    right
    have h0 := hbStep_from_start h1 hm hr
    exact ⟨evs2, by rw [h0]; rfl⟩

/-- helper: once the heartbeat task is stopped and the main flow is past
the start phase, no later step emits a heartbeat (the task never
restarts). -/
theorem hbTrace_stopped_no_heartbeat {i : Int} {s u : HBSys} {evs : List HBEvent}
    (h : HBTrace i s evs u) :
    s.hbRunning = false → s.main ≠ MainPhase.start → HBEvent.heartbeat ∉ evs := by
  induction h with
  | refl s => intro _ _; simp
  | step s t u evs1 evs2 h1 h2 ih =>
    intro hr hm
    cases h1 with
    | acquire => exact absurd rfl hm
    | tick s1 hrun => simp_all
    | hbExit s1 hrun hstop => simp_all
    | beginTeardown s1 hm1 =>
      have ht : HBEvent.heartbeat ∉ evs2 := ih hr (by simp)
      simp [ht]
    | joinHB s1 hm1 hrun =>
      have ht : HBEvent.heartbeat ∉ evs2 := ih hr (by simp)
      simp [ht]
    | doRelease s1 hm1 =>
      have ht : HBEvent.heartbeat ∉ evs2 := ih hr (by simp)
      simp [ht]
    | finish s1 hm1 =>
      have ht : HBEvent.heartbeat ∉ evs2 := ih hr (by simp)
      simp [ht]

/-- helper: one step preserves the joined-implies-stopped invariant. -/
theorem hbStep_joinedInv {i : Int} {s t : HBSys} {evs : List HBEvent}
    (h : HBStep i s evs t) (hs : joinedInv s) : joinedInv t := by
  cases h with
  | acquire => intro hmem; simp at hmem
  | tick s1 hrun => exact hs
  | hbExit s1 hrun hstop => intro _; rfl
  | beginTeardown s1 hm1 => intro hmem; simp at hmem
  | joinHB s1 hm1 hrun => intro _; exact hrun
  | doRelease s1 hm1 => intro _; exact hs (Or.inl hm1)
  | finish s1 hm1 => intro _; exact hs (Or.inr (Or.inl hm1))

/-- helper: the joined-implies-stopped invariant holds along every
trace. -/
theorem hbTrace_joinedInv {i : Int} {s u : HBSys} {evs : List HBEvent}
    (h : HBTrace i s evs u) : joinedInv s → joinedInv u := by
  induction h with
  | refl s => exact id
  | step s t u evs1 evs2 h1 h2 ih => exact fun hs => ih (hbStep_joinedInv h1 hs)

/-- helper: a trace whose event list splits around one event decomposes
into a trace up to some state, a step emitting exactly that event, and a
trace of the remainder. -/
theorem hbTrace_split {i : Int} {s u : HBSys} {evs : List HBEvent}
    (h : HBTrace i s evs u) :
    ∀ pre e post, evs = pre ++ e :: post →
      ∃ t1 t2 : HBSys, HBTrace i s pre t1 ∧ HBStep i t1 [e] t2 ∧
        HBTrace i t2 post u := by
  induction h with
  | refl s =>
    intro pre e post hsplit
    exact absurd hsplit (by simp)
  | step s t u evs1 evs2 h1 h2 ih =>
    intro pre e post hsplit
    rcases hbStep_emits h1 with h0 | ⟨e1, h0⟩
    · subst h0
      obtain ⟨t1, t2, ha, hb, hc⟩ := ih pre e post (by simpa using hsplit)
      exact ⟨t1, t2, by simpa using HBTrace.step _ _ _ _ _ h1 ha, hb, hc⟩
    · subst h0
      cases pre with
      | nil =>
        simp at hsplit
        obtain ⟨he, hrest⟩ := hsplit
        subst he
        exact ⟨s, t, HBTrace.refl s, h1, hrest ▸ h2⟩
      | cons p0 pre2 =>
        simp at hsplit
        obtain ⟨hp, hrest⟩ := hsplit
        obtain ⟨t1, t2, ha, hb, hc⟩ := ih pre2 e post hrest
        refine ⟨t1, t2, ?_, hb, hc⟩
        subst hp
        simpa using HBTrace.step _ _ _ _ _ h1 ha

/-- C6: in a run with positive heartbeat interval, along every execution
of the heartbeat system from the initial state: every heartbeat tick is
preceded by the successful acquire, no heartbeat tick occurs after the
release is issued, and no heartbeat tick occurs after teardown returns
(the heartbeat task starts only after acquisition and is joined before
release). -/
theorem heartbeat_window (interval : Int) (evs : List HBEvent) (u : HBSys)
    (hpos : 0 < interval) (h : HBTrace interval hbInit evs u) :
    (∀ pre post, evs = pre ++ HBEvent.heartbeat :: post →
        HBEvent.acquireOk ∈ pre) ∧
      (∀ pre post, evs = pre ++ HBEvent.released :: post →
        HBEvent.heartbeat ∉ post) ∧
      (∀ pre post, evs = pre ++ HBEvent.teardownReturn :: post →
        HBEvent.heartbeat ∉ post) := by
  have hinv : joinedInv hbInit := fun _ => rfl
  refine ⟨?_, ?_, ?_⟩
  · intro pre post hsplit
    rcases hbTrace_head_acquire h rfl rfl with h0 | ⟨tail, h0⟩
    · rw [h0] at hsplit
      exact absurd hsplit (by simp)
    · rw [h0] at hsplit
      cases pre with
      | nil => simp at hsplit
      | cons p0 pre2 =>
        simp at hsplit
        obtain ⟨hp, -⟩ := hsplit
        subst hp
        exact List.mem_cons_self _ _
  · intro pre post hsplit
    obtain ⟨t1, t2, ha, hb, hc⟩ := hbTrace_split h pre _ post hsplit
    have hinv1 : joinedInv t1 := hbTrace_joinedInv ha hinv
    cases hb with
    | doRelease s1 hm1 =>
      exact hbTrace_stopped_no_heartbeat hc (hinv1 (Or.inl hm1)) (by simp)
  · intro pre post hsplit
    obtain ⟨t1, t2, ha, hb, hc⟩ := hbTrace_split h pre _ post hsplit
    have hinv1 : joinedInv t1 := hbTrace_joinedInv ha hinv
    cases hb with
    | finish s1 hm1 =>
      exact hbTrace_stopped_no_heartbeat hc (hinv1 (Or.inr (Or.inl hm1)))
        (by simp)

/-- Witness for C6 at a concrete six-event execution with interval 1:
acquire, one heartbeat tick, stop signal, heartbeat exit, join, release,
return. -/
theorem heartbeat_window_witness :
    (∀ pre post,
        ([HBEvent.acquireOk, HBEvent.heartbeat, HBEvent.stopSignal,
          HBEvent.joined, HBEvent.released, HBEvent.teardownReturn] :
            List HBEvent) = pre ++ HBEvent.heartbeat :: post →
        HBEvent.acquireOk ∈ pre) ∧
      (∀ pre post,
        ([HBEvent.acquireOk, HBEvent.heartbeat, HBEvent.stopSignal,
          HBEvent.joined, HBEvent.released, HBEvent.teardownReturn] :
            List HBEvent) = pre ++ HBEvent.released :: post →
        HBEvent.heartbeat ∉ post) ∧
      (∀ pre post,
        ([HBEvent.acquireOk, HBEvent.heartbeat, HBEvent.stopSignal,
          HBEvent.joined, HBEvent.released, HBEvent.teardownReturn] :
            List HBEvent) = pre ++ HBEvent.teardownReturn :: post →
        HBEvent.heartbeat ∉ post) := by
  refine heartbeat_window 1 _
    ({ main := MainPhase.finished, hbRunning := false, stopRequested := true } :
      HBSys) (by decide) ?_
  exact HBTrace.step _ _ _ _ _ HBStep.acquire
    (HBTrace.step _ _ _ _ _ (HBStep.tick _ (by decide))
      (HBTrace.step _ _ _ _ _ (HBStep.beginTeardown _ rfl)
        (HBTrace.step _ _ _ _ _ (HBStep.hbExit _ (by decide) rfl)
          (HBTrace.step _ _ _ _ _ (HBStep.joinHB _ rfl rfl)
            (HBTrace.step _ _ _ _ _ (HBStep.doRelease _ rfl)
              (HBTrace.step _ _ _ _ _ (HBStep.finish _ rfl)
                (HBTrace.refl _)))))))

/-- Witness for C5 at a concrete deployer configured with project
"my-proj". -/
theorem explicitProject_no_pool_calls_witness :
    (rmInit exampleDeployerExplicit []).1.resolvedProject =
        exampleDeployerExplicit.GCPProject ∧
      (rmInit exampleDeployerExplicit []).2 = [] ∧
      heartbeatTick (rmInit exampleDeployerExplicit []).1 = [] ∧
      (teardownN 2 (rmInit exampleDeployerExplicit []).1).2 = [] :=
  explicitProject_no_pool_calls exampleDeployerExplicit [] 2 (by decide)

end Kubetest2
